import Mathlib

/-!
Shallow embedding of the `xdg-user-macros` library (`src/lib.rs`).

The library exposes four macros — `xdg_config_home!`, `xdg_cache_home!`,
`xdg_data_home!`, `xdg_runtime_dir!` — each of which reads one override
environment variable via `env::var_os`, falls back to a default base
(`home_dir().unwrap()` plus a fixed suffix for the first three, the string
`format!("\x7b\x7d/\x7b\x7d", "/run/user", getuid())` for the fourth), and then
pushes each caller-supplied segment onto the resulting `PathBuf` in order.

We embed the environment and user identity as an explicit `SysState`
record, paths as `String`s with Unix `PathBuf::push` semantics, and the
possibility of `Option::unwrap` aborting the process as the `panicked`
constructor of `RunResult`.
-/

/-- Unix `Path::is_absolute` (equivalently `has_root`): the path string
begins with the separator `/`. -/
def isAbsolutePath (s : String) : Bool :=
  match s.data with
  | [] => false
  | c :: _ => c == '/'

/-- Whether the buffer already ends with the separator `/` (the `need_sep`
byte test inside `PathBuf::push`). -/
def endsWithSep (s : String) : Bool :=
  match s.data.getLast? with
  | some c => c == '/'
  | none => false

/-- Unix `PathBuf::push` semantics: an absolute argument replaces the whole
buffer; otherwise a `/` separator is inserted unless the buffer is empty or
already ends with `/`, and the argument is appended. -/
def pathPush (self x : String) : String :=
  if isAbsolutePath x then x
  else if self = "" then x
  else if endsWithSep self then self ++ x
  else self ++ "/" ++ x

/-- The read-only state one resolver invocation observes: the four override
environment variables (`env::var_os` results, `none` when the variable is
absent), the result of `std::env::home_dir()`, and the numeric user id
returned by `libc::getuid()`. -/
structure SysState where
  configHomeVar : Option String
  cacheHomeVar : Option String
  dataHomeVar : Option String
  runtimeDirVar : Option String
  home : Option String
  uid : Nat
deriving DecidableEq, Repr

/-- Outcome of one resolver call: either a returned path, or the process
aborting inside `Option::unwrap` because `home_dir()` returned `None`. -/
inductive RunResult where
  | ok (path : String)
  | panicked
deriving DecidableEq, Repr

/-- `xdg_config_home!($($x),*)`: use `$XDG_CONFIG_HOME` verbatim when
present, else `home_dir().unwrap()` with `.config` pushed; then push each
segment in order. -/
def xdg_config_home (st : SysState) (segs : List String) : RunResult :=
  match st.configHomeVar with
  | some val => .ok (segs.foldl pathPush val)
  | none =>
    match st.home with
    | some h => .ok (segs.foldl pathPush (pathPush h ".config"))
    | none => .panicked

/-- `xdg_cache_home!($($x),*)`: use `$XDG_CACHE_HOME` verbatim when present,
else `home_dir().unwrap()` with `.cache` pushed; then push each segment in
order. -/
def xdg_cache_home (st : SysState) (segs : List String) : RunResult :=
  match st.cacheHomeVar with
  | some val => .ok (segs.foldl pathPush val)
  | none =>
    match st.home with
    | some h => .ok (segs.foldl pathPush (pathPush h ".cache"))
    | none => .panicked

/-- `xdg_data_home!($($x),*)`: use `$XDG_DATA_HOME` verbatim when present,
else `home_dir().unwrap()` with `.local/share` pushed; then push each
segment in order. -/
def xdg_data_home (st : SysState) (segs : List String) : RunResult :=
  match st.dataHomeVar with
  | some val => .ok (segs.foldl pathPush val)
  | none =>
    match st.home with
    | some h => .ok (segs.foldl pathPush (pathPush h ".local/share"))
    | none => .panicked

/-- `xdg_runtime_dir!($($x),*)`: use `$XDG_RUNTIME_DIR` verbatim when
present, else the string `"/run/user/" ++ uid`; then push each segment in
order. This resolver never consults the home directory and never aborts. -/
def xdg_runtime_dir (st : SysState) (segs : List String) : String :=
  match st.runtimeDirVar with
  | some val => segs.foldl pathPush val
  | none => segs.foldl pathPush ("/run/user" ++ "/" ++ toString st.uid)

/-- A state with no overrides, home `/home/alice`, uid 1000. -/
def stDefaults : SysState := ⟨none, none, none, none, some "/home/alice", 1000⟩

/-- A state with all four override variables set. -/
def stOverrides : SysState :=
  ⟨some "/etc/xdg-alt", some "/var/cache-alt", some "/var/data-alt",
   some "/tmp/run-alt", some "/home/alice", 1000⟩

/-- A state with no overrides and an unresolvable home directory. -/
def stNoHome : SysState := ⟨none, none, none, none, none, 1000⟩

/-- A state whose config/cache/data overrides are present but empty, with no
resolvable home directory. -/
def stEmptyOverride : SysState := ⟨some "", some "", some "", none, none, 7⟩

/-- A state with only the runtime override set. -/
def stRuntimeOverride : SysState := ⟨none, none, none, some "/tmp/run-1000", none, 0⟩

/-- Appending any suffix keeps a path absolute. -/
lemma isAbsolutePath_append (p q : String) (h : isAbsolutePath p = true) :
    isAbsolutePath (p ++ q) = true := by
  unfold isAbsolutePath at h ⊢
  rw [String.data_append]
  cases hp : p.data with
  | nil => rw [hp] at h; simp at h
  | cons c cs => rw [hp] at h; simpa using h

/-- `pathPush` preserves absoluteness of the buffer. -/
lemma pathPush_absolute (p x : String) (h : isAbsolutePath p = true) :
    isAbsolutePath (pathPush p x) = true := by
  unfold pathPush
  split
  · assumption
  · split
    · next hp =>
      subst hp
      exact absurd h (by decide)
    · split
      · exact isAbsolutePath_append p x h
      · exact isAbsolutePath_append (p ++ "/") x (isAbsolutePath_append p "/" h)


/-- Folding `pathPush` over any segment list preserves absoluteness. -/
lemma foldl_pathPush_absolute (segs : List String) (p : String)
    (h : isAbsolutePath p = true) :
    isAbsolutePath (segs.foldl pathPush p) = true := by
  induction segs generalizing p with
  | nil => exact h
  | cons s rest ih => exact ih (pathPush p s) (pathPush_absolute p s h)

/-- Pushing an absolute argument discards the buffer. -/
lemma pathPush_of_absolute (p a : String) (h : isAbsolutePath a = true) :
    pathPush p a = a := by
  unfold pathPush
  rw [h]
  simp

/-- Pushing an absolute segment in the middle of a fold discards everything
accumulated before it. -/
lemma foldl_pathPush_reset (b : String) (xs ys : List String) (a : String)
    (ha : isAbsolutePath a = true) :
    List.foldl pathPush b (xs ++ a :: ys) = List.foldl pathPush a ys := by
  rw [List.foldl_append, List.foldl_cons, pathPush_of_absolute _ a ha]

/-- C1: when the override variable is set to value `v`, each of the four
resolvers returns `v` used verbatim as the base path with the supplied
segments pushed in order; the right-hand sides mention neither the home
directory nor the user id, so the result is independent of both. -/
theorem override_used_verbatim (st : SysState) (segs : List String) (v : String) :
    (st.configHomeVar = some v →
      xdg_config_home st segs = RunResult.ok (segs.foldl pathPush v)) ∧
    (st.cacheHomeVar = some v →
      xdg_cache_home st segs = RunResult.ok (segs.foldl pathPush v)) ∧
    (st.dataHomeVar = some v →
      xdg_data_home st segs = RunResult.ok (segs.foldl pathPush v)) ∧
    (st.runtimeDirVar = some v →
      xdg_runtime_dir st segs = segs.foldl pathPush v) := by
  refine ⟨fun h => ?_, fun h => ?_, fun h => ?_, fun h => ?_⟩ <;>
    simp only [xdg_config_home, xdg_cache_home, xdg_data_home, xdg_runtime_dir, h]

/-- C1 witness: with all overrides set, each resolver returns the override
value with the segments appended. -/
theorem override_used_verbatim_witness :
    xdg_config_home stOverrides ["myapp", "settings.toml"] =
      RunResult.ok "/etc/xdg-alt/myapp/settings.toml" ∧
    xdg_cache_home stOverrides ["myapp"] = RunResult.ok "/var/cache-alt/myapp" ∧
    xdg_data_home stOverrides ["myapp"] = RunResult.ok "/var/data-alt/myapp" ∧
    xdg_runtime_dir stOverrides ["sock"] = "/tmp/run-alt/sock" :=
  ⟨((override_used_verbatim stOverrides ["myapp", "settings.toml"] "/etc/xdg-alt").1 rfl).trans rfl,
   ((override_used_verbatim stOverrides ["myapp"] "/var/cache-alt").2.1 rfl).trans rfl,
   ((override_used_verbatim stOverrides ["myapp"] "/var/data-alt").2.2.1 rfl).trans rfl,
   ((override_used_verbatim stOverrides ["sock"] "/tmp/run-alt").2.2.2 rfl).trans rfl⟩

/-- C2: with the override unset and home directory `hm`, the config, cache
and data resolvers return `hm` with `.config`, `.cache`, `.local/share`
pushed respectively, then the segments pushed in order. -/
theorem default_bases (st : SysState) (hm : String) (segs : List String)
    (hh : st.home = some hm) :
    (st.configHomeVar = none →
      xdg_config_home st segs =
        RunResult.ok (segs.foldl pathPush (pathPush hm ".config"))) ∧
    (st.cacheHomeVar = none →
      xdg_cache_home st segs =
        RunResult.ok (segs.foldl pathPush (pathPush hm ".cache"))) ∧
    (st.dataHomeVar = none →
      xdg_data_home st segs =
        RunResult.ok (segs.foldl pathPush (pathPush hm ".local/share"))) := by
  refine ⟨fun h => ?_, fun h => ?_, fun h => ?_⟩ <;>
    simp only [xdg_config_home, xdg_cache_home, xdg_data_home, h, hh]

/-- C2 witness: home `/home/alice`, segments `["myapp"]`; in particular the
data resolver returns `/home/alice/.local/share/myapp`. -/
theorem default_bases_witness :
    xdg_config_home stDefaults ["myapp"] = RunResult.ok "/home/alice/.config/myapp" ∧
    xdg_cache_home stDefaults ["myapp"] = RunResult.ok "/home/alice/.cache/myapp" ∧
    xdg_data_home stDefaults ["myapp"] = RunResult.ok "/home/alice/.local/share/myapp" :=
  ⟨((default_bases stDefaults "/home/alice" ["myapp"] rfl).1 rfl).trans rfl,
   ((default_bases stDefaults "/home/alice" ["myapp"] rfl).2.1 rfl).trans rfl,
   ((default_bases stDefaults "/home/alice" ["myapp"] rfl).2.2 rfl).trans rfl⟩

/-- C3: with the runtime override unset, the runtime resolver builds its base
as the string `/run/user/<uid>`, pushes the segments onto it, and never reads
the home directory (replacing the home field leaves the result unchanged). -/
theorem runtime_fallback_uid (st : SysState) (segs : List String)
    (h : st.runtimeDirVar = none) :
    xdg_runtime_dir st segs =
      segs.foldl pathPush ("/run/user" ++ "/" ++ toString st.uid) ∧
    (∀ hm : Option String, xdg_runtime_dir { st with home := hm } segs =
      xdg_runtime_dir st segs) := by
  constructor
  · simp only [xdg_runtime_dir, h]
  · intro hm
    rfl

/-- C3 witness: uid 1000, no segments, no override — the result is
`/run/user/1000`. -/
theorem runtime_fallback_uid_witness :
    xdg_runtime_dir stNoHome [] = "/run/user/1000" ∧
    xdg_runtime_dir { stNoHome with home := some "/home/alice" } [] =
      xdg_runtime_dir stNoHome [] :=
  ⟨((runtime_fallback_uid stNoHome [] rfl).1).trans rfl,
   (runtime_fallback_uid stNoHome [] rfl).2 (some "/home/alice")⟩

/-- C4 counterexample: with no override and no resolvable home directory,
the config resolver aborts inside `Option::unwrap` (`home_dir().unwrap()`);
it does not return any value, so no catchable error reaches the caller. -/
theorem config_aborts_without_home :
    xdg_config_home stNoHome [] = RunResult.panicked := rfl

/-- C4 (amended): when the override is unset and the home directory cannot
be determined, the config, cache and data resolvers abort the process via
`unwrap` instead of surfacing a catchable error, and this abort is their
only failure mode. -/
theorem abort_is_only_failure (st : SysState) (segs : List String) :
    (xdg_config_home st segs = RunResult.panicked ↔
      st.configHomeVar = none ∧ st.home = none) ∧
    (xdg_cache_home st segs = RunResult.panicked ↔
      st.cacheHomeVar = none ∧ st.home = none) ∧
    (xdg_data_home st segs = RunResult.panicked ↔
      st.dataHomeVar = none ∧ st.home = none) := by
  refine ⟨?_, ?_, ?_⟩ <;>
    cases hc : st.configHomeVar <;> cases hca : st.cacheHomeVar <;>
    cases hd : st.dataHomeVar <;> cases hh : st.home <;>
    simp [xdg_config_home, xdg_cache_home, xdg_data_home, hc, hca, hd, hh]

/-- C5 counterexample: an override present with the empty value makes the
config resolver return the empty path, which is not absolute. -/
theorem absolute_invariant_fails :
    xdg_config_home stEmptyOverride [] = RunResult.ok "" ∧
    isAbsolutePath "" = false :=
  ⟨rfl, rfl⟩

/-- C5 (amended): whenever every base the call actually uses is absolute
(each override value when present, and the home directory when some), every
path the resolvers return is absolute; the runtime fallback base
`/run/user/<uid>` is absolute unconditionally. -/
theorem absolute_when_bases_absolute (st : SysState) (segs : List String)
    (hc : ∀ v, st.configHomeVar = some v → isAbsolutePath v = true)
    (hca : ∀ v, st.cacheHomeVar = some v → isAbsolutePath v = true)
    (hd : ∀ v, st.dataHomeVar = some v → isAbsolutePath v = true)
    (hr : ∀ v, st.runtimeDirVar = some v → isAbsolutePath v = true)
    (hh : ∀ hm, st.home = some hm → isAbsolutePath hm = true) :
    (∀ p, xdg_config_home st segs = RunResult.ok p → isAbsolutePath p = true) ∧
    (∀ p, xdg_cache_home st segs = RunResult.ok p → isAbsolutePath p = true) ∧
    (∀ p, xdg_data_home st segs = RunResult.ok p → isAbsolutePath p = true) ∧
    isAbsolutePath (xdg_runtime_dir st segs) = true := by
  refine ⟨?_, ?_, ?_, ?_⟩
  · intro p hp
    cases hcv : st.configHomeVar with
    | some v =>
      simp only [xdg_config_home, hcv, RunResult.ok.injEq] at hp
      exact hp ▸ foldl_pathPush_absolute segs v (hc v hcv)
    | none =>
      cases hhm : st.home with
      | some hm =>
        simp only [xdg_config_home, hcv, hhm, RunResult.ok.injEq] at hp
        exact hp ▸ foldl_pathPush_absolute segs _
          (pathPush_absolute hm ".config" (hh hm hhm))
      | none => simp [xdg_config_home, hcv, hhm] at hp
  · intro p hp
    cases hcv : st.cacheHomeVar with
    | some v =>
      simp only [xdg_cache_home, hcv, RunResult.ok.injEq] at hp
      exact hp ▸ foldl_pathPush_absolute segs v (hca v hcv)
    | none =>
      cases hhm : st.home with
      | some hm =>
        simp only [xdg_cache_home, hcv, hhm, RunResult.ok.injEq] at hp
        exact hp ▸ foldl_pathPush_absolute segs _
          (pathPush_absolute hm ".cache" (hh hm hhm))
      | none => simp [xdg_cache_home, hcv, hhm] at hp
  · intro p hp
    cases hcv : st.dataHomeVar with
    | some v =>
      simp only [xdg_data_home, hcv, RunResult.ok.injEq] at hp
      exact hp ▸ foldl_pathPush_absolute segs v (hd v hcv)
    | none =>
      cases hhm : st.home with
      | some hm =>
        simp only [xdg_data_home, hcv, hhm, RunResult.ok.injEq] at hp
        exact hp ▸ foldl_pathPush_absolute segs _
          (pathPush_absolute hm ".local/share" (hh hm hhm))
      | none => simp [xdg_data_home, hcv, hhm] at hp
  · cases hrv : st.runtimeDirVar with
    | some v =>
      simp only [xdg_runtime_dir, hrv]
      exact foldl_pathPush_absolute segs v (hr v hrv)
    | none =>
      simp only [xdg_runtime_dir, hrv]
      exact foldl_pathPush_absolute segs _
        (isAbsolutePath_append ("/run/user" ++ "/") (toString st.uid)
          (isAbsolutePath_append "/run/user" "/" (by decide)))

/-- C5 witness: at the default state every base is absolute and the returned
paths are absolute. -/
theorem absolute_when_bases_absolute_witness :
    isAbsolutePath "/home/alice/.config/myapp" = true ∧
    isAbsolutePath (xdg_runtime_dir stDefaults ["myapp"]) = true := by
  have h := absolute_when_bases_absolute stDefaults ["myapp"]
    (fun v hv => Option.noConfusion hv) (fun v hv => Option.noConfusion hv)
    (fun v hv => Option.noConfusion hv) (fun v hv => Option.noConfusion hv)
    (fun hm hv => by injection hv with e; subst e; decide)
  exact ⟨h.1 "/home/alice/.config/myapp" rfl, h.2.2.2⟩

/-- C6: each resolver is a pure function of the observed state and the
segments: two calls with identical state and identical segments return
identical results. -/
theorem resolvers_deterministic (st st2 : SysState) (segs segs2 : List String)
    (hst : st = st2) (hsegs : segs = segs2) :
    xdg_config_home st segs = xdg_config_home st2 segs2 ∧
    xdg_cache_home st segs = xdg_cache_home st2 segs2 ∧
    xdg_data_home st segs = xdg_data_home st2 segs2 ∧
    xdg_runtime_dir st segs = xdg_runtime_dir st2 segs2 := by
  subst hst
  subst hsegs
  exact ⟨rfl, rfl, rfl, rfl⟩

/-- C6 witness: two identical calls at the default state agree. -/
theorem resolvers_deterministic_witness :
    xdg_config_home stDefaults ["a"] = xdg_config_home stDefaults ["a"] ∧
    xdg_cache_home stDefaults ["a"] = xdg_cache_home stDefaults ["a"] ∧
    xdg_data_home stDefaults ["a"] = xdg_data_home stDefaults ["a"] ∧
    xdg_runtime_dir stDefaults ["a"] = xdg_runtime_dir stDefaults ["a"] :=
  resolvers_deterministic stDefaults stDefaults ["a"] ["a"] rfl rfl

/-- C7: appending a segment list in one call equals appending it in two:
resolving with `xs ++ ys` gives the resolution with `xs` continued by
pushing the segments of `ys` in order (so `["a", "b"]` equals `"a"` then
`"b"`). -/
theorem segment_appension_composes (st : SysState) (xs ys : List String) :
    (∀ p, xdg_config_home st xs = RunResult.ok p →
      xdg_config_home st (xs ++ ys) = RunResult.ok (ys.foldl pathPush p)) ∧
    (∀ p, xdg_cache_home st xs = RunResult.ok p →
      xdg_cache_home st (xs ++ ys) = RunResult.ok (ys.foldl pathPush p)) ∧
    (∀ p, xdg_data_home st xs = RunResult.ok p →
      xdg_data_home st (xs ++ ys) = RunResult.ok (ys.foldl pathPush p)) ∧
    xdg_runtime_dir st (xs ++ ys) = ys.foldl pathPush (xdg_runtime_dir st xs) := by
  refine ⟨?_, ?_, ?_, ?_⟩
  · intro p hp
    cases hc : st.configHomeVar with
    | some v =>
      simp only [xdg_config_home, hc, RunResult.ok.injEq] at hp ⊢
      rw [List.foldl_append, hp]
    | none =>
      cases hh : st.home with
      | some hm =>
        simp only [xdg_config_home, hc, hh, RunResult.ok.injEq] at hp ⊢
        rw [List.foldl_append, hp]
      | none => simp [xdg_config_home, hc, hh] at hp
  · intro p hp
    cases hc : st.cacheHomeVar with
    | some v =>
      simp only [xdg_cache_home, hc, RunResult.ok.injEq] at hp ⊢
      rw [List.foldl_append, hp]
    | none =>
      cases hh : st.home with
      | some hm =>
        simp only [xdg_cache_home, hc, hh, RunResult.ok.injEq] at hp ⊢
        rw [List.foldl_append, hp]
      | none => simp [xdg_cache_home, hc, hh] at hp
  · intro p hp
    cases hc : st.dataHomeVar with
    | some v =>
      simp only [xdg_data_home, hc, RunResult.ok.injEq] at hp ⊢
      rw [List.foldl_append, hp]
    | none =>
      cases hh : st.home with
      | some hm =>
        simp only [xdg_data_home, hc, hh, RunResult.ok.injEq] at hp ⊢
        rw [List.foldl_append, hp]
      | none => simp [xdg_data_home, hc, hh] at hp
  · cases hr : st.runtimeDirVar <;>
      simp [xdg_runtime_dir, hr, List.foldl_append]

/-- C7 witness: at the default state, resolving `["a"] ++ ["b"]` equals the
resolution of `["a"]` with `"b"` pushed afterwards. -/
theorem segment_appension_composes_witness :
    xdg_config_home stDefaults (["a"] ++ ["b"]) =
      RunResult.ok "/home/alice/.config/a/b" ∧
    xdg_runtime_dir stDefaults (["a"] ++ ["b"]) =
      ["b"].foldl pathPush (xdg_runtime_dir stDefaults ["a"]) :=
  ⟨((segment_appension_composes stDefaults ["a"] ["b"]).1
      "/home/alice/.config/a" rfl).trans rfl,
   (segment_appension_composes stDefaults ["a"] ["b"]).2.2.2⟩

/-- C8: with the runtime override set to `v`, the runtime resolver returns
`v` with the segments pushed, and the result is unchanged under any
replacement of the user id, so the user-identity query is not needed for
the call to produce its path. -/
theorem runtime_override_uid_independent (st : SysState) (v : String)
    (segs : List String) (u : Nat) (h : st.runtimeDirVar = some v) :
    xdg_runtime_dir st segs = segs.foldl pathPush v ∧
    xdg_runtime_dir { st with uid := u } segs = xdg_runtime_dir st segs := by
  constructor
  · simp only [xdg_runtime_dir, h]
  · simp only [xdg_runtime_dir, h]

/-- C8 witness: override `/tmp/run-1000` with segment `["socket"]` returns
`/tmp/run-1000/socket` for uid 0 and for uid 4242 alike. -/
theorem runtime_override_uid_independent_witness :
    xdg_runtime_dir stRuntimeOverride ["socket"] = "/tmp/run-1000/socket" ∧
    xdg_runtime_dir { stRuntimeOverride with uid := 4242 } ["socket"] =
      xdg_runtime_dir stRuntimeOverride ["socket"] :=
  ⟨((runtime_override_uid_independent stRuntimeOverride "/tmp/run-1000"
      ["socket"] 4242 rfl).1).trans rfl,
   (runtime_override_uid_independent stRuntimeOverride "/tmp/run-1000"
      ["socket"] 4242 rfl).2⟩

/-- C9: an override variable present with the empty value is treated as set:
the config, cache and data resolvers use the empty string verbatim as the
base and never consult the home directory (erasing the home field leaves the
result unchanged). -/
theorem empty_override_is_set (st : SysState) (segs : List String) :
    (st.configHomeVar = some "" →
      xdg_config_home st segs = RunResult.ok (segs.foldl pathPush "") ∧
      xdg_config_home { st with home := none } segs = xdg_config_home st segs) ∧
    (st.cacheHomeVar = some "" →
      xdg_cache_home st segs = RunResult.ok (segs.foldl pathPush "") ∧
      xdg_cache_home { st with home := none } segs = xdg_cache_home st segs) ∧
    (st.dataHomeVar = some "" →
      xdg_data_home st segs = RunResult.ok (segs.foldl pathPush "") ∧
      xdg_data_home { st with home := none } segs = xdg_data_home st segs) := by
  refine ⟨fun h => ⟨?_, ?_⟩, fun h => ⟨?_, ?_⟩, fun h => ⟨?_, ?_⟩⟩ <;>
    simp only [xdg_config_home, xdg_cache_home, xdg_data_home, h]

/-- C9 witness: with all three overrides empty and no resolvable home, each
resolver succeeds and returns the segment pushed onto the empty base. -/
theorem empty_override_is_set_witness :
    xdg_config_home stEmptyOverride ["a"] = RunResult.ok "a" ∧
    xdg_cache_home stEmptyOverride ["a"] = RunResult.ok "a" ∧
    xdg_data_home stEmptyOverride ["a"] = RunResult.ok "a" :=
  ⟨(((empty_override_is_set stEmptyOverride ["a"]).1 rfl).1).trans rfl,
   (((empty_override_is_set stEmptyOverride ["a"]).2.1 rfl).1).trans rfl,
   (((empty_override_is_set stEmptyOverride ["a"]).2.2 rfl).1).trans rfl⟩

/-- C10: an absolute caller-supplied segment replaces the whole accumulated
path (`PathBuf::push` semantics): whenever the base resolves, the result of
appending `xs ++ a :: ys` with `a` absolute is `a` with the later segments
`ys` pushed — the base and the earlier segments `xs` are discarded. -/
theorem absolute_segment_replaces (st : SysState) (xs ys : List String)
    (a : String) (ha : isAbsolutePath a = true) :
    (∀ p, xdg_config_home st xs = RunResult.ok p →
      xdg_config_home st (xs ++ a :: ys) = RunResult.ok (ys.foldl pathPush a)) ∧
    (∀ p, xdg_cache_home st xs = RunResult.ok p →
      xdg_cache_home st (xs ++ a :: ys) = RunResult.ok (ys.foldl pathPush a)) ∧
    (∀ p, xdg_data_home st xs = RunResult.ok p →
      xdg_data_home st (xs ++ a :: ys) = RunResult.ok (ys.foldl pathPush a)) ∧
    xdg_runtime_dir st (xs ++ a :: ys) = ys.foldl pathPush a := by
  refine ⟨?_, ?_, ?_, ?_⟩
  · intro p hp
    cases hc : st.configHomeVar with
    | some v => simp [xdg_config_home, hc, foldl_pathPush_reset _ xs ys a ha]
    | none =>
      cases hh : st.home with
      | some hm => simp [xdg_config_home, hc, hh, foldl_pathPush_reset _ xs ys a ha]
      | none => simp [xdg_config_home, hc, hh] at hp
  · intro p hp
    cases hc : st.cacheHomeVar with
    | some v => simp [xdg_cache_home, hc, foldl_pathPush_reset _ xs ys a ha]
    | none =>
      cases hh : st.home with
      | some hm => simp [xdg_cache_home, hc, hh, foldl_pathPush_reset _ xs ys a ha]
      | none => simp [xdg_cache_home, hc, hh] at hp
  · intro p hp
    cases hc : st.dataHomeVar with
    | some v => simp [xdg_data_home, hc, foldl_pathPush_reset _ xs ys a ha]
    | none =>
      cases hh : st.home with
      | some hm => simp [xdg_data_home, hc, hh, foldl_pathPush_reset _ xs ys a ha]
      | none => simp [xdg_data_home, hc, hh] at hp
  · cases hr : st.runtimeDirVar <;>
      simp [xdg_runtime_dir, hr, foldl_pathPush_reset _ xs ys a ha]

/-- C10 witness: at the default state with segments `["x", "/abs", "y"]`,
the config resolver returns `/abs/y` — the home base and the segment `x`
are gone — and the runtime resolver likewise returns `/abs/y`. -/
theorem absolute_segment_replaces_witness :
    xdg_config_home stDefaults (["x"] ++ "/abs" :: ["y"]) =
      RunResult.ok "/abs/y" ∧
    xdg_runtime_dir stDefaults (["x"] ++ "/abs" :: ["y"]) =
      ["y"].foldl pathPush "/abs" :=
  ⟨((absolute_segment_replaces stDefaults ["x"] ["y"] "/abs" (by decide)).1
      "/home/alice/.config/x" rfl).trans rfl,
   (absolute_segment_replaces stDefaults ["x"] ["y"] "/abs" (by decide)).2.2.2⟩
